import Mathlib

set_option maxRecDepth 100000

/-!
# Verification of the `BrushFace` geometry kernel

A shallow embedding, over exact rational arithmetic, of
`src/common/src/mdl/BrushFace.cpp` (TrenchBroom brush face kernel) together
with the minimal parts of its collaborators (the `vm` vector/plane math
library, `BrushFaceAttributes`, the polymorphic UV coordinate system, the
material/texture registry and the half-edge boundary) that the verified
operations consume.  Those collaborators are not part of the excerpted
sources; where a definition models one of them it carries a
`Modelled from the spec:` doc comment naming what is missing.

Floating point (`double`/`float`) is idealised as `ℚ`; the epsilon-guarded
vector quantisation `vm::correct` is modelled with a concrete small epsilon,
and "near zero" tests are idealised as exact-zero tests.  Plane normals are
stored unnormalised (as the defining cross product); statements about unit
length are phrased through an explicit normalisation over `ℝ` in the
theorems that need them.
-/

namespace TBMdl

/-- Modelled from the spec: the `vm` math library's 3d vector of `double`
("Plane/Vector math library (external collaborator)"), idealised over `ℚ`. -/
structure Vec3 where
  x : ℚ
  y : ℚ
  z : ℚ
deriving DecidableEq

namespace Vec3

/-- Componentwise addition. -/
def add (a b : Vec3) : Vec3 := ⟨a.x + b.x, a.y + b.y, a.z + b.z⟩

/-- Componentwise subtraction. -/
def sub (a b : Vec3) : Vec3 := ⟨a.x - b.x, a.y - b.y, a.z - b.z⟩

/-- Scalar multiplication. -/
def smul (s : ℚ) (v : Vec3) : Vec3 := ⟨s * v.x, s * v.y, s * v.z⟩

/-- Dot product. -/
def dot (a b : Vec3) : ℚ := a.x * b.x + a.y * b.y + a.z * b.z

/-- Cross product. -/
def cross (a b : Vec3) : Vec3 :=
  ⟨a.y * b.z - a.z * b.y, a.z * b.x - a.x * b.z, a.x * b.y - a.y * b.x⟩

/-- The zero vector. -/
def zero : Vec3 := ⟨0, 0, 0⟩

instance : Add Vec3 := ⟨add⟩

instance : Sub Vec3 := ⟨sub⟩

instance : SMul ℚ Vec3 := ⟨smul⟩

instance : Zero Vec3 := ⟨zero⟩

@[ext]
theorem ext {a b : Vec3} (hx : a.x = b.x) (hy : a.y = b.y) (hz : a.z = b.z) :
    a = b := by
  cases a; cases b; simp_all

@[simp] theorem add_x (a b : Vec3) : (a + b).x = a.x + b.x := rfl

@[simp] theorem add_y (a b : Vec3) : (a + b).y = a.y + b.y := rfl

@[simp] theorem add_z (a b : Vec3) : (a + b).z = a.z + b.z := rfl

@[simp] theorem sub_x (a b : Vec3) : (a - b).x = a.x - b.x := rfl

@[simp] theorem sub_y (a b : Vec3) : (a - b).y = a.y - b.y := rfl

@[simp] theorem sub_z (a b : Vec3) : (a - b).z = a.z - b.z := rfl

@[simp] theorem smul_x (s : ℚ) (v : Vec3) : (s • v).x = s * v.x := rfl

@[simp] theorem smul_y (s : ℚ) (v : Vec3) : (s • v).y = s * v.y := rfl

@[simp] theorem smul_z (s : ℚ) (v : Vec3) : (s • v).z = s * v.z := rfl

@[simp] theorem zero_x : (0 : Vec3).x = 0 := rfl

@[simp] theorem zero_y : (0 : Vec3).y = 0 := rfl

@[simp] theorem zero_z : (0 : Vec3).z = 0 := rfl

theorem zero_def : (0 : Vec3) = ⟨0, 0, 0⟩ := rfl

/-- The cross product is orthogonal to its first argument. -/
theorem dot_cross_left (a b : Vec3) : dot (cross a b) a = 0 := by
  simp only [dot, cross]; ring

/-- The cross product is orthogonal to its second argument. -/
theorem dot_cross_right (a b : Vec3) : dot (cross a b) b = 0 := by
  simp only [dot, cross]; ring

/-- A nonzero vector has positive squared length. -/
theorem normSq_pos {n : Vec3} (h : n ≠ 0) :
    0 < n.x ^ 2 + n.y ^ 2 + n.z ^ 2 := by
  rcases lt_or_eq_of_le (by positivity :
      (0 : ℚ) ≤ n.x ^ 2 + n.y ^ 2 + n.z ^ 2) with h' | h'
  · exact h'
  · exfalso
    apply h
    have hx : n.x = 0 := by nlinarith [sq_nonneg n.x, sq_nonneg n.y, sq_nonneg n.z]
    have hy : n.y = 0 := by nlinarith [sq_nonneg n.x, sq_nonneg n.y, sq_nonneg n.z]
    have hz : n.z = 0 := by nlinarith [sq_nonneg n.x, sq_nonneg n.y, sq_nonneg n.z]
    ext <;> simp [hx, hy, hz]

end Vec3

/-- Computable floor on `ℚ` (numerator divided by denominator with integer
flooring division); used instead of Mathlib's non-reducing `Int.floor`. -/
def floorQ (x : ℚ) : ℤ := x.num / (x.den : ℤ)

/-- Computable round-half-up on `ℚ`. -/
def roundQ (x : ℚ) : ℤ := floorQ (x + 1 / 2)

/-- Modelled from the spec: the `vm` library's correction epsilon used by
`vm::correct` ("lightly quantized to cancel floating-point noise"). -/
def correctEpsilon : ℚ := 1 / 1000

/-- Modelled from the spec: `vm::correct` on one scalar — snap the value to
the nearest multiple of `10^(-decimals)` when it already lies within
`correctEpsilon * 10^(-decimals)` of it, and leave it unchanged otherwise. -/
def correctScalar (decimals : ℕ) (x : ℚ) : ℚ :=
  if |x * 10 ^ decimals - (roundQ (x * 10 ^ decimals) : ℚ)| < correctEpsilon
  then (roundQ (x * 10 ^ decimals) : ℚ) / 10 ^ decimals
  else x

/-- Modelled from the spec: `vm::correct` on a vector, applied independently
to each component with zero decimals. -/
def Vec3.correct (v : Vec3) : Vec3 :=
  ⟨correctScalar 0 v.x, correctScalar 0 v.y, correctScalar 0 v.z⟩

/-- Modelled from the spec: `vm::correct` on a 2d vector with a given number
of decimals (used for UV offsets, 4 decimals). -/
def correct2 (decimals : ℕ) (v : ℚ × ℚ) : ℚ × ℚ :=
  (correctScalar decimals v.1, correctScalar decimals v.2)

/-- Quantisation moves a value by at most `correctEpsilon / 10^decimals`. -/
theorem correctScalar_close (decimals : ℕ) (x : ℚ) :
    |correctScalar decimals x - x| ≤ correctEpsilon / 10 ^ decimals := by
  unfold correctScalar
  have hmpos : (0 : ℚ) < 10 ^ decimals := by positivity
  by_cases h : |x * 10 ^ decimals - (roundQ (x * 10 ^ decimals) : ℚ)| < correctEpsilon
  · rw [if_pos h]
    have heq : (roundQ (x * 10 ^ decimals) : ℚ) / 10 ^ decimals - x
        = -((x * 10 ^ decimals - (roundQ (x * 10 ^ decimals) : ℚ)) / 10 ^ decimals) := by
      field_simp
      ring
    rw [heq, abs_neg, abs_div, abs_of_pos hmpos]
    gcongr
  · rw [if_neg h, sub_self, abs_zero]
    unfold correctEpsilon
    positivity

/-- Modelled from the spec: `vm::plane3d`, "normal vector + signed distance";
the set of points `p` with `dot normal p = dist`.  The stored normal is kept
unnormalised (the defining cross product); the code stores the normalised
vector, a positive rescaling that leaves the plane, all sign tests and all
projections in this file unchanged. -/
structure Plane where
  normal : Vec3
  dist : ℚ
deriving DecidableEq

/-- Modelled from the spec: `vm::from_points` ("plane-from-three-points") —
derive the plane through three points, with normal `cross (p2 - p0) (p1 - p0)`
(the map-format winding convention used by the code), failing on a degenerate
(collinear or duplicated) triple. -/
def fromPoints (p0 p1 p2 : Vec3) : Option Plane :=
  let n := Vec3.cross (p2 - p0) (p1 - p0)
  if n = 0 then none else some ⟨n, Vec3.dot p0 n⟩

/-- Modelled from the spec: `vm::plane3d::anchor()`, the canonical point on
the plane (the projection of the origin onto it). -/
def Plane.anchor (p : Plane) : Vec3 :=
  (p.dist / Vec3.dot p.normal p.normal) • p.normal

/-- Modelled from the spec: the linear part of a `vm::mat4x4d`, given by its
three rows. -/
structure Mat3 where
  r0 : Vec3
  r1 : Vec3
  r2 : Vec3
deriving DecidableEq

/-- Matrix-vector product. -/
def Mat3.mulVec (A : Mat3) (v : Vec3) : Vec3 :=
  ⟨Vec3.dot A.r0 v, Vec3.dot A.r1 v, Vec3.dot A.r2 v⟩

/-- Determinant of a 3x3 matrix. -/
def Mat3.det (A : Mat3) : ℚ := Vec3.dot A.r0 (Vec3.cross A.r1 A.r2)

/-- The action of the inverse transpose on a vector, via the adjugate:
`(A⁻¹)ᵀ n = (1 / det A) • ((r1 × r2)·n, (r2 × r0)·n, (r0 × r1)·n)`.
This is how a plane normal transforms under the linear map `A`. -/
def Mat3.invTransposeMulVec (A : Mat3) (n : Vec3) : Vec3 :=
  (1 / A.det) •
    (⟨Vec3.dot (Vec3.cross A.r1 A.r2) n,
      Vec3.dot (Vec3.cross A.r2 A.r0) n,
      Vec3.dot (Vec3.cross A.r0 A.r1) n⟩ : Vec3)

/-- Modelled from the spec: an affine `vm::mat4x4d` transform, split into its
linear part and its translation column. -/
structure Affine where
  linear : Mat3
  translation : Vec3
deriving DecidableEq

/-- Apply an affine transform to a point. -/
def Affine.apply (M : Affine) (p : Vec3) : Vec3 :=
  M.linear.mulVec p + M.translation

/-- Modelled from the spec: `vm::plane3d::transform` — the normal is carried
by the inverse transpose of the linear part and the distance is re-derived
from the transformed anchor point. -/
def Plane.transform (p : Plane) (M : Affine) : Plane :=
  let n := M.linear.invTransposeMulVec p.normal
  ⟨n, Vec3.dot n (M.apply p.anchor)⟩

/-- The inverse-transpose action undoes the matrix action inside a dot
product: `((A⁻¹)ᵀ n) · (A v) = n · v` whenever `A` is invertible.  This is
the change-of-variables fact making `Plane.transform` map the plane's point
set to the transformed point set. -/
theorem Mat3.dot_invTransposeMulVec_mulVec (A : Mat3) (n v : Vec3)
    (h : A.det ≠ 0) :
    Vec3.dot (A.invTransposeMulVec n) (A.mulVec v) = Vec3.dot n v := by
  unfold Mat3.invTransposeMulVec Mat3.mulVec Mat3.det at *
  simp only [Vec3.dot, Vec3.cross, Vec3.smul_x, Vec3.smul_y, Vec3.smul_z] at *
  field_simp
  ring

/-- Modelled from the spec: `vm::line3d`, a point and a direction. -/
structure Line3 where
  point : Vec3
  direction : Vec3
deriving DecidableEq

/-- Modelled from the spec: `vm::intersect_plane_plane` — the seam line of
two planes; `none` exactly when the planes are parallel (the normals' cross
product vanishes, the code's near-zero test idealised to exact zero). -/
def intersectPlanePlane (p q : Plane) : Option Line3 :=
  let dir := Vec3.cross p.normal q.normal
  if dir = 0 then none
  else
    let n1 := p.normal
    let n2 := q.normal
    let den := Vec3.dot n1 n1 * Vec3.dot n2 n2 - Vec3.dot n1 n2 * Vec3.dot n1 n2
    some ⟨((p.dist * Vec3.dot n2 n2 - q.dist * Vec3.dot n1 n2) / den) • n1
            + ((q.dist * Vec3.dot n1 n1 - p.dist * Vec3.dot n1 n2) / den) • n2,
          dir⟩

/-- Modelled from the spec: `vm::project_point` onto a line — the point of
the line nearest to `p` (orthogonal projection); with a zero direction it
returns the line's base point, matching the code's `value_or(line3d{})`
fallback followed by a projection along a zero direction. -/
def Line3.projectPoint (l : Line3) (p : Vec3) : Vec3 :=
  l.point + (Vec3.dot (p - l.point) l.direction / Vec3.dot l.direction l.direction) • l.direction

/-- Modelled from the spec: an RGBA colour value (the optional colour
override carried by face attributes). -/
structure Color where
  r : ℚ
  g : ℚ
  b : ℚ
  a : ℚ
deriving DecidableEq

/-- Modelled from the spec: `BrushFaceAttributes` — "material name, UV
offset, scale (x/y), rotation, optional surface contents/flags/value,
optional color override". -/
structure BrushFaceAttributes where
  materialName : String
  xOffset : ℚ
  yOffset : ℚ
  rotation : ℚ
  xScale : ℚ
  yScale : ℚ
  surfaceContents : Option Int
  surfaceFlags : Option Int
  surfaceValue : Option ℚ
  color : Option Color
deriving DecidableEq

namespace BrushFaceAttributes

/-- The UV offset as a pair. -/
def offset (a : BrushFaceAttributes) : ℚ × ℚ := (a.xOffset, a.yOffset)

/-- Modelled from the spec: the kdl-style setter — write the field and
report whether its value actually changed. -/
def setMaterialName (a : BrushFaceAttributes) (v : String) : Bool × BrushFaceAttributes :=
  (decide (a.materialName ≠ v), { a with materialName := v })

/-- Setter for the x offset, reporting change. -/
def setXOffset (a : BrushFaceAttributes) (v : ℚ) : Bool × BrushFaceAttributes :=
  (decide (a.xOffset ≠ v), { a with xOffset := v })

/-- Setter for the y offset, reporting change. -/
def setYOffset (a : BrushFaceAttributes) (v : ℚ) : Bool × BrushFaceAttributes :=
  (decide (a.yOffset ≠ v), { a with yOffset := v })

/-- Setter for the rotation, reporting change. -/
def setRotationAttr (a : BrushFaceAttributes) (v : ℚ) : Bool × BrushFaceAttributes :=
  (decide (a.rotation ≠ v), { a with rotation := v })

/-- Setter for the x scale, reporting change. -/
def setXScale (a : BrushFaceAttributes) (v : ℚ) : Bool × BrushFaceAttributes :=
  (decide (a.xScale ≠ v), { a with xScale := v })

/-- Setter for the y scale, reporting change. -/
def setYScale (a : BrushFaceAttributes) (v : ℚ) : Bool × BrushFaceAttributes :=
  (decide (a.yScale ≠ v), { a with yScale := v })

/-- Setter for the optional surface contents, reporting change. -/
def setSurfaceContents (a : BrushFaceAttributes) (v : Option Int) : Bool × BrushFaceAttributes :=
  (decide (a.surfaceContents ≠ v), { a with surfaceContents := v })

/-- Setter for the optional surface flags, reporting change. -/
def setSurfaceFlags (a : BrushFaceAttributes) (v : Option Int) : Bool × BrushFaceAttributes :=
  (decide (a.surfaceFlags ≠ v), { a with surfaceFlags := v })

/-- Setter for the optional surface value, reporting change. -/
def setSurfaceValue (a : BrushFaceAttributes) (v : Option ℚ) : Bool × BrushFaceAttributes :=
  (decide (a.surfaceValue ≠ v), { a with surfaceValue := v })

/-- Setter writing both offset components (no change report). -/
def setOffset (a : BrushFaceAttributes) (o : ℚ × ℚ) : BrushFaceAttributes :=
  { a with xOffset := o.1, yOffset := o.2 }

end BrushFaceAttributes

/-- Floor-style remainder on `ℚ`: `x` reduced by the largest integer
multiple of `w` not exceeding it (for `w = 0` it returns `x`). -/
def fmodQ (x w : ℚ) : ℚ := x - w * (floorQ (x / w) : ℚ)

/-- Modelled from the spec: `BrushFaceAttributes::modOffset`, wrapping each
offset component by the corresponding texture dimension. -/
def BrushFaceAttributes.modOffset (_ : BrushFaceAttributes) (o texSize : ℚ × ℚ) : ℚ × ℚ :=
  (fmodQ o.1 texSize.1, fmodQ o.2 texSize.2)

/-- `fmodQ` differs from its argument by an integer multiple of the modulus. -/
theorem fmodQ_sub_int (x w : ℚ) : ∃ k : ℤ, fmodQ x w = x - w * k :=
  ⟨floorQ (x / w), rfl⟩

/-- Modelled from the spec: a texture, reduced to its texel-size query. -/
structure Texture where
  width : ℚ
  height : ℚ
deriving DecidableEq

/-- Modelled from the spec: a material resource, which may or may not carry
a texture. -/
structure Material where
  texture : Option Texture
deriving DecidableEq

/-- Modelled from the spec: `mdl::getTexture`, null-safe texture lookup on
an optional material reference. -/
def getTexture (m : Option Material) : Option Texture :=
  m.bind Material.texture

/-- Modelled from the spec: the wrap policy carried across a normal change
("Projection or equivalent"). -/
inductive WrapStyle where
  | projection
  | rotationStyle
deriving DecidableEq

/-- Modelled from the spec: the Parallel UV coordinate system variant —
"axes are stored explicitly as two 3D vectors".  It stands in for the
polymorphic `UVCoordSystem`, whose sources are not part of the excerpt; a
snapshot captures exactly this axis state. -/
structure UVCoordSystem where
  uAxis : Vec3
  vAxis : Vec3
deriving DecidableEq

/-- Modelled from the spec: division by a scale component, substituting 1
for a zero scale (the code's safe-scale guard). -/
def safeScale (s : ℚ) : ℚ := if s = 0 then 1 else s

namespace UVCoordSystem

/-- Modelled from the spec: `uvCoords(worldPoint, attributes, textureSize)`
— project the world point onto each axis, divide by the scale, add the
offset, and express the result in texture-size units. -/
def uvCoords (s : UVCoordSystem) (p : Vec3) (a : BrushFaceAttributes)
    (texSize : ℚ × ℚ) : ℚ × ℚ :=
  ((Vec3.dot p s.uAxis / safeScale a.xScale + a.xOffset) / texSize.1,
   (Vec3.dot p s.vAxis / safeScale a.yScale + a.yOffset) / texSize.2)

/-- Orthogonal projection of a vector onto the plane with normal `n`. -/
def projectOntoPlane (n v : Vec3) : Vec3 :=
  v - (Vec3.dot v n / Vec3.dot n n) • n

/-- Modelled from the spec: `setNormal(oldNormal, newNormal, attributes,
wrapStyle)` — re-orient the axes as the face normal changes; the projection
wrap policy carries each axis by projecting it onto the new plane.  The
claims proved below do not depend on the carried axes' values. -/
def setNormal (s : UVCoordSystem) (_oldNormal newNormal : Vec3)
    (_a : BrushFaceAttributes) (_wrapStyle : WrapStyle) : UVCoordSystem :=
  ⟨projectOntoPlane newNormal s.uAxis, projectOntoPlane newNormal s.vAxis⟩

/-- Modelled from the spec: `UVCoordSystem::clone()`, the deep copy invoked
by the face copy constructor (value-identical fresh state). -/
def clone (s : UVCoordSystem) : UVCoordSystem := ⟨s.uAxis, s.vAxis⟩

end UVCoordSystem

/-- Modelled from the spec: `vm::direction`, the camera-relative flip
direction passed to `flipUV`. -/
inductive Direction where
  | up
  | down
  | left
  | right
deriving DecidableEq

/-- The brush face (`BrushFace.cpp`): three defining points, the derived
boundary plane, editable attributes, a shared material reference, the owned
UV coordinate system, the non-owning half-edge boundary back-reference
(modelled as the ordered list of boundary vertex positions, `none` when
detached), provenance line numbers, and the transient editor flags. -/
structure BrushFace where
  points : Vec3 × Vec3 × Vec3
  boundary : Plane
  attributes : BrushFaceAttributes
  material : Option Material
  uvCoordSystem : UVCoordSystem
  geometry : Option (List Vec3)
  lineNumber : ℕ
  lineCount : ℕ
  selected : Bool
  markedToRenderFace : Bool
deriving DecidableEq

namespace BrushFace

/-- Sum of a list of vectors. -/
def sumV (vs : List Vec3) : Vec3 := vs.foldr (· + ·) 0

/-- Modelled from the spec: `vm::average` over the boundary vertex
positions. -/
def centerOf (vs : List Vec3) : Vec3 := ((1 : ℚ) / vs.length) • sumV vs

/-- `BrushFace::center()`: the average of the attached boundary's vertex
positions.  Calling it with a null geometry is an `ensure` contract
violation in the code; the model returns the zero vector there and the
theorems below always supply an attached geometry. -/
def center (f : BrushFace) : Vec3 :=
  match f.geometry with
  | some vs => centerOf vs
  | none => 0

/-- `BrushFace::textureSize()`: the material's texel size clamped below by
one in each component, and `(1, 1)` when there is no material or no
texture. -/
def textureSize (f : BrushFace) : ℚ × ℚ :=
  match getTexture f.material with
  | some t => (max t.width 1, max t.height 1)
  | none => (1, 1)

/-- `BrushFace::modOffset`: wrap an offset by the face's texture size. -/
def modOffset (f : BrushFace) (o : ℚ × ℚ) : ℚ × ℚ :=
  f.attributes.modOffset o f.textureSize

/-- `BrushFace::uvCoords`: texture coordinates of a world point under the
face's UV system, attributes and texture size. -/
def uvCoords (f : BrushFace) (p : Vec3) : ℚ × ℚ :=
  f.uvCoordSystem.uvCoords p f.attributes f.textureSize

/-- `BrushFace::create` (the `unique_ptr<UVCoordSystem>` overload): correct
the three points independently, derive the boundary plane, and construct the
face; a degenerate corrected triple yields the error
`"Brush has invalid face"` and no face. -/
def create (p0 p1 p2 : Vec3) (attributes : BrushFaceAttributes)
    (uvCoordSystem : UVCoordSystem) : Except String BrushFace :=
  let q0 := p0.correct
  let q1 := p1.correct
  let q2 := p2.correct
  match fromPoints q0 q1 q2 with
  | some plane =>
    .ok { points := (q0, q1, q2)
          boundary := plane
          attributes := attributes
          material := none
          uvCoordSystem := uvCoordSystem
          geometry := none
          lineNumber := 0
          lineCount := 0
          selected := false
          markedToRenderFace := false }
  | none => .error "Brush has invalid face"

/-- `BrushFace::setPoints`: store the three points, correct them in place,
and re-derive the boundary plane; a degenerate corrected triple yields the
error `"Brush has invalid face"`. -/
def setPoints (f : BrushFace) (p0 p1 p2 : Vec3) : Except String BrushFace :=
  let q0 := p0.correct
  let q1 := p1.correct
  let q2 := p2.correct
  match fromPoints q0 q1 q2 with
  | some plane => .ok { f with points := (q0, q1, q2), boundary := plane }
  | none => .error "Brush has invalid face"

/-- `BrushFace::BrushFace(const BrushFace&)`: the copy constructor — copies
points, boundary, attributes, material reference, line numbers and the
selection flag, deep-clones the UV coordinate system, and leaves the
geometry back-reference and the render mark at their defaults (null and
false, per the in-class member initialisers). -/
def copy (f : BrushFace) : BrushFace :=
  { f with
    uvCoordSystem := f.uvCoordSystem.clone
    geometry := none
    markedToRenderFace := false }

/-- `BrushFace::setAttributes(const BrushFace&)`: merge the other face's
attributes field by field (material name, offsets, rotation, scales,
surface contents/flags/value), returning whether any of those fields
changed.  The colour override is not among the merged fields. -/
def setAttributesFrom (f other : BrushFace) : Bool × BrushFace :=
  let (b1, a1) := f.attributes.setMaterialName other.attributes.materialName
  let (b2, a2) := a1.setXOffset other.attributes.xOffset
  let (b3, a3) := a2.setYOffset other.attributes.yOffset
  let (b4, a4) := a3.setRotationAttr other.attributes.rotation
  let (b5, a5) := a4.setXScale other.attributes.xScale
  let (b6, a6) := a5.setYScale other.attributes.yScale
  let (b7, a7) := a6.setSurfaceContents other.attributes.surfaceContents
  let (b8, a8) := a7.setSurfaceFlags other.attributes.surfaceFlags
  let (b9, a9) := a8.setSurfaceValue other.attributes.surfaceValue
  (b1 || b2 || b3 || b4 || b5 || b6 || b7 || b8 || b9,
   { f with attributes := a9 })

/-- The axis choice made by `BrushFace::flipUV`: whether the V axis is
closer to the camera right vector (the squared, cross-multiplied form of
the code's comparison of cosines of the axis lines against the camera right
vector), combined with the requested flip direction.  It reads only the UV
coordinate system's axes, the camera right vector and the direction — not
the scale attributes, whose `fromMatrix` query is made at unit scale. -/
def flipUAxisChoice (f : BrushFace) (cameraRight : Vec3)
    (cameraRelativeFlipDirection : Direction) : Bool :=
  let u := f.uvCoordSystem.uAxis
  let v := f.uvCoordSystem.vAxis
  let cameraRightCloserToV : Bool :=
    decide (Vec3.dot v cameraRight ^ 2 * Vec3.dot u u
              > Vec3.dot u cameraRight ^ 2 * Vec3.dot v v)
  let flipUAxis0 : Bool :=
    decide (cameraRelativeFlipDirection = Direction.left
              ∨ cameraRelativeFlipDirection = Direction.right)
  if cameraRightCloserToV then !flipUAxis0 else flipUAxis0

/-- `BrushFace::flipUV`: decide from the texture axes' world directions
which axis is camera-relative horizontal, then negate the corresponding
scale attribute.  The camera up vector is ignored, as in the code. -/
def flipUV (f : BrushFace) (_cameraUp cameraRight : Vec3)
    (cameraRelativeFlipDirection : Direction) : BrushFace :=
  if flipUAxisChoice f cameraRight cameraRelativeFlipDirection then
    { f with attributes := { f.attributes with xScale := -1 * f.attributes.xScale } }
  else
    { f with attributes := { f.attributes with yScale := -1 * f.attributes.yScale } }

/-- The sort key used by `BrushFace::sortFaces`: the boundary plane normal
followed by the boundary plane distance. -/
def faceKey (f : BrushFace) : ℚ × ℚ × ℚ × ℚ :=
  (f.boundary.normal.x, f.boundary.normal.y, f.boundary.normal.z, f.boundary.dist)

/-- Non-strict lexicographic comparison of sort keys; its strict part is the
comparator lambda in `BrushFace::sortFaces` (`vm::compare` of the normals,
ties broken by the distance). -/
def lexLe4 (a b : ℚ × ℚ × ℚ × ℚ) : Bool :=
  if a.1 < b.1 then true
  else if b.1 < a.1 then false
  else if a.2.1 < b.2.1 then true
  else if b.2.1 < a.2.1 then false
  else if a.2.2.1 < b.2.2.1 then true
  else if b.2.2.1 < a.2.2.1 then false
  else decide (a.2.2.2 ≤ b.2.2.2)

/-- The face ordering of `BrushFace::sortFaces`. -/
def faceLe (f g : BrushFace) : Bool := lexLe4 (faceKey f) (faceKey g)

/-- `BrushFace::sortFaces`: sort faces by plane normal (lexicographically),
ties broken by plane distance; `std::sort` is modelled by merge sort, which
produces the same result on any strict-weak-ordered input with pairwise
distinct keys. -/
def sortFaces (faces : List BrushFace) : List BrushFace :=
  faces.mergeSort faceLe

/-- The record of the delegation to `UVCoordSystem::transform` at the end of
`BrushFace::transform`.  The UV variants' own `transform` implementations
are outside the excerpted sources, so the model records the exact arguments
the face hands over instead of mutating the UV state. -/
structure UVTransformCall where
  oldBoundary : Plane
  newBoundary : Plane
  matrix : Affine
  attributes : BrushFaceAttributes
  textureSize : ℚ × ℚ
  lockAlignment : Bool
  invariant : Vec3
deriving DecidableEq

/-- The three defining points after application of the transform matrix. -/
def transformedPoints (f : BrushFace) (M : Affine) : Vec3 × Vec3 × Vec3 :=
  (M.apply f.points.1, M.apply f.points.2.1, M.apply f.points.2.2)

/-- The winding correction in `BrushFace::transform`: when the transformed
triangle's signed normal `cross (p2 - p0) (p1 - p0)` opposes the transformed
plane normal `n`, swap the second and third points. -/
def windingCorrected (q : Vec3 × Vec3 × Vec3) (n : Vec3) : Vec3 × Vec3 × Vec3 :=
  if Vec3.dot (Vec3.cross (q.2.2 - q.1) (q.2.1 - q.1)) n < 0
  then (q.1, q.2.2, q.2.1)
  else q

/-- `BrushFace::transform(matrix, lockAlignment)`: record the invariant
point (polygon center when a geometry is attached, else the plane anchor)
and the pre-transform boundary; transform the boundary and the three
points; correct an inverted winding; re-derive the plane from the corrected
points via `setPoints` (failing with `"Brush has invalid face"` on a
degenerate triple); and on success delegate to the UV system's `transform`
with the recorded arguments. -/
def transform (f : BrushFace) (M : Affine) (lockAlignment : Bool) :
    Except String (BrushFace × UVTransformCall) :=
  let invariant := match f.geometry with
    | some _ => f.center
    | none => f.boundary.anchor
  let oldBoundary := f.boundary
  let newBoundary := f.boundary.transform M
  let q := windingCorrected (transformedPoints f M) newBoundary.normal
  match ({ f with boundary := newBoundary } : BrushFace).setPoints q.1 q.2.1 q.2.2 with
  | .error e => .error e
  | .ok fNew =>
    .ok (fNew,
      { oldBoundary := oldBoundary
        newBoundary := fNew.boundary
        matrix := M
        attributes := fNew.attributes
        textureSize := fNew.textureSize
        lockAlignment := lockAlignment
        invariant := invariant })

/-- `BrushFace::updatePointsFromVertices`: re-derive the defining points and
the plane from the boundary vertices around the first half-edge (its next's
origin, its own origin, and its previous' origin — the second, first and
last boundary vertices), then, when the old and the new plane intersect in
a seam, re-orient the UV system (projection wrap) and shift the offset so
that the UV coordinates at the seam point nearest the center are preserved.
A null geometry is an `ensure` contract violation in the code; the model
returns a distinct error there. -/
def updatePointsFromVertices (f : BrushFace) : Except String BrushFace :=
  match f.geometry with
  | none => .error "geometry is null"
  | some vs =>
    let oldBoundary := f.boundary
    match f.setPoints (vs.getD 1 0) (vs.getD 0 0) (vs.getLast?.getD 0) with
    | .error e => .error e
    | .ok f1 =>
      match intersectPlanePlane oldBoundary f1.boundary with
      | none => .ok f1
      | some seam =>
        let refPoint := seam.projectPoint f1.center
        let desired := f1.uvCoordSystem.uvCoords refPoint f1.attributes (1, 1)
        let uv2 := f1.uvCoordSystem.setNormal oldBoundary.normal f1.boundary.normal
          f1.attributes WrapStyle.projection
        let current := uv2.uvCoords refPoint f1.attributes (1, 1)
        let offsetChange := (desired.1 - current.1, desired.2 - current.2)
        let newOffset := correct2 4 (f1.modOffset
          (f1.attributes.offset.1 + offsetChange.1, f1.attributes.offset.2 + offsetChange.2))
        .ok { f1 with
              uvCoordSystem := uv2
              attributes := f1.attributes.setOffset newOffset }

/-- `BrushFace::copyUVCoordSystemFromFace(snapshot, attributes, sourcePlane,
wrapStyle)`: intersect the source plane with this face's plane (falling back
to the null line when parallel), restore the snapshot, read the desired UV
coordinates at the seam reference point under the source attributes,
re-orient the restored system to this face's normal, and, only when the
seam direction is nonzero, shift the offset so the UV coordinates at the
reference point are preserved. -/
def copyUVCoordSystemFromFace (f : BrushFace) (coordSystemSnapshot : UVCoordSystem)
    (attributes : BrushFaceAttributes) (sourceFacePlane : Plane)
    (wrapStyle : WrapStyle) : BrushFace :=
  let seam := (intersectPlanePlane sourceFacePlane f.boundary).getD ⟨0, 0⟩
  let refPoint := seam.projectPoint f.center
  let uv1 := coordSystemSnapshot
  let desired := uv1.uvCoords refPoint attributes (1, 1)
  let uv2 := uv1.setNormal sourceFacePlane.normal f.boundary.normal f.attributes wrapStyle
  if seam.direction ≠ 0 then
    let current := uv2.uvCoords refPoint f.attributes (1, 1)
    let offsetChange := (desired.1 - current.1, desired.2 - current.2)
    { f with
      uvCoordSystem := uv2
      attributes := f.attributes.setOffset (correct2 4 (f.modOffset
        (f.attributes.offset.1 + offsetChange.1, f.attributes.offset.2 + offsetChange.2))) }
  else
    { f with uvCoordSystem := uv2 }

end BrushFace

deriving instance DecidableEq for Except

/-! ## Concrete fixtures used by witnesses and counterexamples -/

/-- Default face attributes: empty material name, zero offsets and rotation,
unit scales, no surface overrides, no colour override. -/
def attrsDefault : BrushFaceAttributes :=
  ⟨"", 0, 0, 0, 1, 1, none, none, none, none⟩

/-- A UV coordinate system with the standard horizontal axes. -/
def uvDefault : UVCoordSystem := ⟨⟨1, 0, 0⟩, ⟨0, 1, 0⟩⟩

/-- A face whose plane disagrees with the plane of its attached square
boundary (the situation `updatePointsFromVertices` repairs): the stored
plane is `x = 0` while the boundary square lies in `z = 0`. -/
def faceSquare : BrushFace :=
  { points := (⟨2, 0, 0⟩, ⟨0, 0, 0⟩, ⟨0, 2, 0⟩)
    boundary := ⟨⟨1, 0, 0⟩, 0⟩
    attributes := attrsDefault
    material := none
    uvCoordSystem := uvDefault
    geometry := some [⟨0, 0, 0⟩, ⟨2, 0, 0⟩, ⟨2, 2, 0⟩, ⟨0, 2, 0⟩]
    lineNumber := 0
    lineCount := 0
    selected := false
    markedToRenderFace := false }

/-- A consistent triangular face in the plane `z = 0` with an attached
triangular boundary. -/
def faceTriangle : BrushFace :=
  { points := (⟨0, 0, 0⟩, ⟨2, 0, 0⟩, ⟨0, 2, 0⟩)
    boundary := ⟨⟨0, 0, 4⟩, 0⟩
    attributes := attrsDefault
    material := none
    uvCoordSystem := uvDefault
    geometry := some [⟨0, 0, 0⟩, ⟨2, 0, 0⟩, ⟨0, 2, 0⟩]
    lineNumber := 0
    lineCount := 0
    selected := false
    markedToRenderFace := false }

/-- A detached face with plane normal `(1, 0, 0)`. -/
def faceA : BrushFace :=
  { faceTriangle with boundary := ⟨⟨1, 0, 0⟩, 0⟩ }

/-- A detached face with plane normal `(0, 1, 0)`. -/
def faceB : BrushFace :=
  { faceTriangle with boundary := ⟨⟨0, 1, 0⟩, 0⟩ }

/-! ## Theorems -/

/-- Both components of the texture size are at least one (helper). -/
theorem textureSize_one_le (f : BrushFace) :
    1 ≤ f.textureSize.1 ∧ 1 ≤ f.textureSize.2 := by
  unfold BrushFace.textureSize
  cases getTexture f.material with
  | none => exact ⟨le_refl 1, le_refl 1⟩
  | some t => exact ⟨le_max_right _ _, le_max_right _ _⟩

/-- C10: for every BrushFace, `textureSize()` returns a vector whose
components are both at least 1 — in particular nonzero — including when no
material is set, the material has no texture, or the texture reports a
zero-sized dimension; so the downstream divisions by texel size (in
`uvCoords` and `modOffset`) never divide by zero. -/
theorem BrushFace.textureSize_spec (f : BrushFace) :
    1 ≤ f.textureSize.1 ∧ 1 ≤ f.textureSize.2
      ∧ f.textureSize.1 ≠ 0 ∧ f.textureSize.2 ≠ 0 := by
  obtain ⟨h1, h2⟩ := textureSize_one_le f
  exact ⟨h1, h2, by linarith, by linarith⟩

/-- C9: copy-constructing a BrushFace yields a face whose geometry
back-reference is null regardless of the source's, whose points, plane,
attributes, material reference, line number/count and selected flag equal
the source's, and whose UV coordinate system is the clone of the source's
(the model expresses the deep clone at value level). -/
theorem BrushFace.copy_spec (f : BrushFace) :
    f.copy.geometry = none
    ∧ f.copy.points = f.points
    ∧ f.copy.boundary = f.boundary
    ∧ f.copy.attributes = f.attributes
    ∧ f.copy.material = f.material
    ∧ f.copy.lineNumber = f.lineNumber
    ∧ f.copy.lineCount = f.lineCount
    ∧ f.copy.selected = f.selected
    ∧ f.copy.uvCoordSystem = f.uvCoordSystem.clone
    ∧ f.uvCoordSystem.clone = f.uvCoordSystem :=
  ⟨rfl, rfl, rfl, rfl, rfl, rfl, rfl, rfl, rfl, rfl⟩

/-- The triangle face with a colour override set on its attributes. -/
def faceColored : BrushFace :=
  { faceTriangle with attributes := { attrsDefault with color := some ⟨1, 0, 0, 1⟩ } }

/-- C8 counterexample: `setAttributes(otherFace)` does not merge the colour
override.  For two faces that differ exactly in the colour attribute, the
merge leaves this face's attributes different from the other's (the claimed
full field-by-field merge fails) and reports no change. -/
theorem setAttributesFrom_color_cex :
    (BrushFace.setAttributesFrom faceTriangle faceColored).2.attributes
      ≠ faceColored.attributes
    ∧ (BrushFace.setAttributesFrom faceTriangle faceColored).1 = false := by
  have hc1 : (BrushFace.setAttributesFrom faceTriangle faceColored).2.attributes.color
      = none := rfl
  have hc2 : faceColored.attributes.color = some ⟨1, 0, 0, 1⟩ := rfl
  refine ⟨fun h => ?_, rfl⟩
  rw [h, hc2] at hc1
  exact Option.noConfusion hc1

/-- The sequential setter chain of `setAttributes(const BrushFace&)`
flattened: the reported flag is the disjunction of the per-field change
tests and the merged attributes take the other face's nine merged fields. -/
theorem setAttributesFrom_eq (f g : BrushFace) :
    BrushFace.setAttributesFrom f g =
      (decide (f.attributes.materialName ≠ g.attributes.materialName)
        || decide (f.attributes.xOffset ≠ g.attributes.xOffset)
        || decide (f.attributes.yOffset ≠ g.attributes.yOffset)
        || decide (f.attributes.rotation ≠ g.attributes.rotation)
        || decide (f.attributes.xScale ≠ g.attributes.xScale)
        || decide (f.attributes.yScale ≠ g.attributes.yScale)
        || decide (f.attributes.surfaceContents ≠ g.attributes.surfaceContents)
        || decide (f.attributes.surfaceFlags ≠ g.attributes.surfaceFlags)
        || decide (f.attributes.surfaceValue ≠ g.attributes.surfaceValue),
       { f with attributes := { f.attributes with
           materialName := g.attributes.materialName
           xOffset := g.attributes.xOffset
           yOffset := g.attributes.yOffset
           rotation := g.attributes.rotation
           xScale := g.attributes.xScale
           yScale := g.attributes.yScale
           surfaceContents := g.attributes.surfaceContents
           surfaceFlags := g.attributes.surfaceFlags
           surfaceValue := g.attributes.surfaceValue } }) := rfl

/-- C8 (amended): `setAttributes(otherFace)` copies every attribute field
except the colour override, which is left unchanged, and returns true if
and only if at least one of the merged fields actually changed — i.e. it
returns false exactly when the merge is a no-op on the face. -/
theorem BrushFace.setAttributesFrom_spec (f g : BrushFace) :
    (BrushFace.setAttributesFrom f g).2.attributes.color = f.attributes.color
    ∧ (BrushFace.setAttributesFrom f g).2.attributes.materialName = g.attributes.materialName
    ∧ (BrushFace.setAttributesFrom f g).2.attributes.xOffset = g.attributes.xOffset
    ∧ (BrushFace.setAttributesFrom f g).2.attributes.yOffset = g.attributes.yOffset
    ∧ (BrushFace.setAttributesFrom f g).2.attributes.rotation = g.attributes.rotation
    ∧ (BrushFace.setAttributesFrom f g).2.attributes.xScale = g.attributes.xScale
    ∧ (BrushFace.setAttributesFrom f g).2.attributes.yScale = g.attributes.yScale
    ∧ (BrushFace.setAttributesFrom f g).2.attributes.surfaceContents = g.attributes.surfaceContents
    ∧ (BrushFace.setAttributesFrom f g).2.attributes.surfaceFlags = g.attributes.surfaceFlags
    ∧ (BrushFace.setAttributesFrom f g).2.attributes.surfaceValue = g.attributes.surfaceValue
    ∧ ((BrushFace.setAttributesFrom f g).1 = false ↔ (BrushFace.setAttributesFrom f g).2 = f) := by
  rw [setAttributesFrom_eq]
  obtain ⟨pts, bd, ⟨mn, xo, yo, rot, xs, ys, sc, sf, sv, col⟩, mat, uvs, geo, ln, lc, sel, mrk⟩ := f
  refine ⟨rfl, rfl, rfl, rfl, rfl, rfl, rfl, rfl, rfl, rfl, ?_⟩
  simp only [Bool.or_eq_false_iff, decide_eq_false_iff_not, not_not,
    BrushFace.mk.injEq, BrushFaceAttributes.mk.injEq, and_true, true_and]
  tauto

/-- Changing only the attributes of a face does not change the flip axis
choice, which reads only the UV system and the camera. -/
theorem flipUAxisChoice_attrs (f : BrushFace) (a : BrushFaceAttributes)
    (cameraRight : Vec3) (d : Direction) :
    BrushFace.flipUAxisChoice { f with attributes := a } cameraRight d
      = BrushFace.flipUAxisChoice f cameraRight d := rfl

/-- C6: for every BrushFace and fixed camera vectors and flip direction,
applying `flipUV` twice restores the original `xScale` and `yScale`; each
application negates exactly one of the two scale attributes, and the choice
of the negated axis depends only on the UV axes and the camera vectors, not
on the scale signs, so the same scale is negated both times. -/
theorem BrushFace.flipUV_twice_restores_scales (f : BrushFace)
    (cameraUp cameraRight : Vec3) (d : Direction) :
    (((f.flipUV cameraUp cameraRight d).flipUV cameraUp cameraRight d).attributes.xScale
        = f.attributes.xScale
      ∧ ((f.flipUV cameraUp cameraRight d).flipUV cameraUp cameraRight d).attributes.yScale
        = f.attributes.yScale)
    ∧ ((f.flipUV cameraUp cameraRight d).attributes.xScale = -f.attributes.xScale
          ∧ (f.flipUV cameraUp cameraRight d).attributes.yScale = f.attributes.yScale
        ∨ (f.flipUV cameraUp cameraRight d).attributes.xScale = f.attributes.xScale
          ∧ (f.flipUV cameraUp cameraRight d).attributes.yScale = -f.attributes.yScale) := by
  cases h : BrushFace.flipUAxisChoice f cameraRight d with
  | true =>
    have e1 : f.flipUV cameraUp cameraRight d
        = { f with attributes := { f.attributes with xScale := -1 * f.attributes.xScale } } := by
      unfold BrushFace.flipUV
      rw [h]
      rfl
    have e2 : (f.flipUV cameraUp cameraRight d).flipUV cameraUp cameraRight d
        = { f with attributes :=
              { f.attributes with xScale := -1 * (-1 * f.attributes.xScale) } } := by
      rw [e1]
      unfold BrushFace.flipUV
      rw [flipUAxisChoice_attrs, h]
      rfl
    rw [e2, e1]
    refine ⟨⟨?_, rfl⟩, Or.inl ⟨?_, rfl⟩⟩
    · show -1 * (-1 * f.attributes.xScale) = f.attributes.xScale
      ring
    · show -1 * f.attributes.xScale = -f.attributes.xScale
      ring
  | false =>
    have e1 : f.flipUV cameraUp cameraRight d
        = { f with attributes := { f.attributes with yScale := -1 * f.attributes.yScale } } := by
      unfold BrushFace.flipUV
      rw [h]
      rfl
    have e2 : (f.flipUV cameraUp cameraRight d).flipUV cameraUp cameraRight d
        = { f with attributes :=
              { f.attributes with yScale := -1 * (-1 * f.attributes.yScale) } } := by
      rw [e1]
      unfold BrushFace.flipUV
      rw [flipUAxisChoice_attrs, h]
      rfl
    rw [e2, e1]
    refine ⟨⟨rfl, ?_⟩, Or.inr ⟨rfl, ?_⟩⟩
    · show -1 * (-1 * f.attributes.yScale) = f.attributes.yScale
      ring
    · show -1 * f.attributes.yScale = -f.attributes.yScale
      ring

/-- C5: when the seam direction between the source face's plane and this
face's plane is degenerate (parallel planes, near-zero direction idealised
to zero), `copyUVCoordSystemFromFace` leaves the attributes — in particular
the offset — exactly unchanged, while the snapshot restore and the
re-orientation of the UV system to this face's normal still take place; the
rest of the face is untouched. -/
theorem BrushFace.copyUV_parallel_skips_offset (f : BrushFace) (vs : List Vec3)
    (snap : UVCoordSystem) (srcAttrs : BrushFaceAttributes) (srcPlane : Plane)
    (style : WrapStyle)
    (_hgeom : f.geometry = some vs)
    (hpar : Vec3.cross srcPlane.normal f.boundary.normal = 0) :
    (f.copyUVCoordSystemFromFace snap srcAttrs srcPlane style).attributes = f.attributes
    ∧ (f.copyUVCoordSystemFromFace snap srcAttrs srcPlane style).uvCoordSystem
        = snap.setNormal srcPlane.normal f.boundary.normal f.attributes style
    ∧ (f.copyUVCoordSystemFromFace snap srcAttrs srcPlane style).points = f.points
    ∧ (f.copyUVCoordSystemFromFace snap srcAttrs srcPlane style).boundary = f.boundary
    ∧ (f.copyUVCoordSystemFromFace snap srcAttrs srcPlane style).geometry = f.geometry := by
  have hnone : intersectPlanePlane srcPlane f.boundary = none := by
    unfold intersectPlanePlane
    simp only [hpar, if_pos]
  have he : f.copyUVCoordSystemFromFace snap srcAttrs srcPlane style
      = { f with uvCoordSystem :=
            snap.setNormal srcPlane.normal f.boundary.normal f.attributes style } := by
    unfold BrushFace.copyUVCoordSystemFromFace
    rw [hnone]
    rfl
  rw [he]
  exact ⟨rfl, rfl, rfl, rfl, rfl⟩

/-- C5 witness: a concrete face with an attached triangular boundary and a
source plane equal to its own plane (parallel normals), at which the
hypotheses of `copyUV_parallel_skips_offset` hold and the conclusion
follows by applying it. -/
theorem copyUV_parallel_skips_offset_witness :
    faceTriangle.geometry = some [⟨0, 0, 0⟩, ⟨2, 0, 0⟩, ⟨0, 2, 0⟩]
    ∧ Vec3.cross (⟨⟨0, 0, 1⟩, 5⟩ : Plane).normal faceTriangle.boundary.normal = 0
    ∧ ((faceTriangle.copyUVCoordSystemFromFace uvDefault attrsDefault ⟨⟨0, 0, 1⟩, 5⟩
          WrapStyle.projection).attributes = faceTriangle.attributes
      ∧ (faceTriangle.copyUVCoordSystemFromFace uvDefault attrsDefault ⟨⟨0, 0, 1⟩, 5⟩
          WrapStyle.projection).uvCoordSystem
        = uvDefault.setNormal (⟨⟨0, 0, 1⟩, 5⟩ : Plane).normal faceTriangle.boundary.normal
            faceTriangle.attributes WrapStyle.projection
      ∧ (faceTriangle.copyUVCoordSystemFromFace uvDefault attrsDefault ⟨⟨0, 0, 1⟩, 5⟩
          WrapStyle.projection).points = faceTriangle.points
      ∧ (faceTriangle.copyUVCoordSystemFromFace uvDefault attrsDefault ⟨⟨0, 0, 1⟩, 5⟩
          WrapStyle.projection).boundary = faceTriangle.boundary
      ∧ (faceTriangle.copyUVCoordSystemFromFace uvDefault attrsDefault ⟨⟨0, 0, 1⟩, 5⟩
          WrapStyle.projection).geometry = faceTriangle.geometry) :=
  ⟨rfl, by with_unfolding_all decide,
    BrushFace.copyUV_parallel_skips_offset faceTriangle [⟨0, 0, 0⟩, ⟨2, 0, 0⟩, ⟨0, 2, 0⟩]
      uvDefault attrsDefault ⟨⟨0, 0, 1⟩, 5⟩ WrapStyle.projection rfl
      (by with_unfolding_all decide)⟩

/-- Affine dependence of a point triple: some nontrivial combination of the
two difference vectors vanishes — the triple is collinear or contains a
duplicate point. -/
def degenerateTriple (a b c : Vec3) : Prop :=
  ∃ r s : ℚ, (r ≠ 0 ∨ s ≠ 0) ∧ r • (b - a) + s • (c - a) = 0

/-- One cross-product component vanishes on a dependent pair (helper). -/
theorem crossComponent_zero {r s p q p' q' : ℚ} (hr : r ≠ 0)
    (h1 : r * p + s * p' = 0) (h2 : r * q + s * q' = 0) :
    p' * q - q' * p = 0 := by
  apply mul_left_cancel₀ hr
  rw [mul_zero]
  linear_combination p' * h2 - q' * h1

/-- A degenerate triple has a vanishing defining cross product. -/
theorem cross_eq_zero_of_degenerate {a b c : Vec3} (h : degenerateTriple a b c) :
    Vec3.cross (c - a) (b - a) = 0 := by
  obtain ⟨r, s, hrs, heq⟩ := h
  have hx := congrArg Vec3.x heq
  have hy := congrArg Vec3.y heq
  have hz := congrArg Vec3.z heq
  simp only [Vec3.add_x, Vec3.add_y, Vec3.add_z, Vec3.smul_x, Vec3.smul_y,
    Vec3.smul_z, Vec3.zero_x, Vec3.zero_y, Vec3.zero_z] at hx hy hz
  rcases hrs with hr | hs
  · ext
    · exact crossComponent_zero hr hy hz
    · exact crossComponent_zero hr hz hx
    · exact crossComponent_zero hr hx hy
  · have hx' : s * (c - a).x + r * (b - a).x = 0 := by linarith
    have hy' : s * (c - a).y + r * (b - a).y = 0 := by linarith
    have hz' : s * (c - a).z + r * (b - a).z = 0 := by linarith
    ext
    · have := crossComponent_zero hs hy' hz'
      show (c - a).y * (b - a).z - (c - a).z * (b - a).y = 0
      linarith
    · have := crossComponent_zero hs hz' hx'
      show (c - a).z * (b - a).x - (c - a).x * (b - a).z = 0
      linarith
    · have := crossComponent_zero hs hx' hy'
      show (c - a).x * (b - a).y - (c - a).y * (b - a).x = 0
      linarith

/-- C2: for every point triple that, after per-point correction, is
collinear or contains duplicates (affinely dependent, so no valid plane can
be derived), `BrushFace::create` returns exactly the error
`"Brush has invalid face"`, and no face is constructed. -/
theorem BrushFace.create_degenerate_error (p0 p1 p2 : Vec3)
    (attributes : BrushFaceAttributes) (uvCoordSystem : UVCoordSystem)
    (h : degenerateTriple p0.correct p1.correct p2.correct) :
    BrushFace.create p0 p1 p2 attributes uvCoordSystem
      = .error "Brush has invalid face" := by
  have hz := cross_eq_zero_of_degenerate h
  unfold BrushFace.create fromPoints
  simp only [hz, if_pos]

/-- C2 witness: the concrete collinear triple `(0,0,0), (1,1,1), (2,2,2)`
(fixed by correction) is degenerate, and `create` on it returns the
invalid-face error, by applying `create_degenerate_error`. -/
theorem create_degenerate_error_witness :
    degenerateTriple (Vec3.correct ⟨0, 0, 0⟩) (Vec3.correct ⟨1, 1, 1⟩)
        (Vec3.correct ⟨2, 2, 2⟩)
    ∧ BrushFace.create ⟨0, 0, 0⟩ ⟨1, 1, 1⟩ ⟨2, 2, 2⟩ attrsDefault uvDefault
      = .error "Brush has invalid face" :=
  ⟨⟨2, -1, Or.inl (by norm_num), by with_unfolding_all decide⟩,
   BrushFace.create_degenerate_error ⟨0, 0, 0⟩ ⟨1, 1, 1⟩ ⟨2, 2, 2⟩ attrsDefault uvDefault
     ⟨2, -1, Or.inl (by norm_num), by with_unfolding_all decide⟩⟩

/-- C3 counterexample: the claim's orthogonality to the raw differences
fails once `correct()` moves a point.  For the triple `(0,0,0)`,
`(4,0,1/2000)`, `(0,4,0)`, the second point is quantised to `(4,0,0)`,
`create` succeeds, and the resulting boundary normal has dot product
`-1/125 ≠ 0` with the raw difference `point1 - point0`. -/
theorem create_raw_orthogonality_cex :
    (BrushFace.create ⟨0, 0, 0⟩ ⟨4, 0, 1/2000⟩ ⟨0, 4, 0⟩ attrsDefault uvDefault).map
        (fun f => Vec3.dot f.boundary.normal ((⟨4, 0, 1/2000⟩ : Vec3) - ⟨0, 0, 0⟩))
      = .ok (-1/125)
    ∧ (-1/125 : ℚ) ≠ 0 := by
  constructor
  · with_unfolding_all decide
  · norm_num

/-- C3 (amended): for every triple whose corrected points are
non-degenerate, `create` succeeds; the resulting `boundary().normal` is the
defining cross product of the corrected differences, it is orthogonal to
the corrected differences `correct(point1) - correct(point0)` and
`correct(point2) - correct(point0)`, and its normalisation (the unit vector
the code stores) has length one. -/
theorem BrushFace.create_nondegenerate_spec (p0 p1 p2 : Vec3)
    (attributes : BrushFaceAttributes) (uvCoordSystem : UVCoordSystem)
    (h : Vec3.cross (p2.correct - p0.correct) (p1.correct - p0.correct) ≠ 0) :
    ∃ f : BrushFace,
      BrushFace.create p0 p1 p2 attributes uvCoordSystem = .ok f
      ∧ f.boundary.normal
          = Vec3.cross (p2.correct - p0.correct) (p1.correct - p0.correct)
      ∧ Vec3.dot f.boundary.normal (p1.correct - p0.correct) = 0
      ∧ Vec3.dot f.boundary.normal (p2.correct - p0.correct) = 0
      ∧ ((f.boundary.normal.x : ℝ)
            / Real.sqrt ((f.boundary.normal.x ^ 2 + f.boundary.normal.y ^ 2
                + f.boundary.normal.z ^ 2 : ℚ) : ℝ)) ^ 2
          + ((f.boundary.normal.y : ℝ)
            / Real.sqrt ((f.boundary.normal.x ^ 2 + f.boundary.normal.y ^ 2
                + f.boundary.normal.z ^ 2 : ℚ) : ℝ)) ^ 2
          + ((f.boundary.normal.z : ℝ)
            / Real.sqrt ((f.boundary.normal.x ^ 2 + f.boundary.normal.y ^ 2
                + f.boundary.normal.z ^ 2 : ℚ) : ℝ)) ^ 2 = 1 := by
  have hfp : fromPoints p0.correct p1.correct p2.correct
      = some ⟨Vec3.cross (p2.correct - p0.correct) (p1.correct - p0.correct),
              Vec3.dot p0.correct
                (Vec3.cross (p2.correct - p0.correct) (p1.correct - p0.correct))⟩ := by
    unfold fromPoints
    rw [if_neg h]
  refine ⟨{ points := (p0.correct, p1.correct, p2.correct)
            boundary := ⟨Vec3.cross (p2.correct - p0.correct) (p1.correct - p0.correct),
              Vec3.dot p0.correct
                (Vec3.cross (p2.correct - p0.correct) (p1.correct - p0.correct))⟩
            attributes := attributes
            material := none
            uvCoordSystem := uvCoordSystem
            geometry := none
            lineNumber := 0
            lineCount := 0
            selected := false
            markedToRenderFace := false }, ?_, rfl, ?_, ?_, ?_⟩
  · unfold BrushFace.create
    simp only [hfp]
  · exact Vec3.dot_cross_right _ _
  · exact Vec3.dot_cross_left _ _
  · set n : Vec3 := Vec3.cross (p2.correct - p0.correct) (p1.correct - p0.correct) with hn
    have hq : 0 < n.x ^ 2 + n.y ^ 2 + n.z ^ 2 := Vec3.normSq_pos h
    have hQpos : (0 : ℝ) < ((n.x ^ 2 + n.y ^ 2 + n.z ^ 2 : ℚ) : ℝ) := by
      exact_mod_cast hq
    have hs : Real.sqrt ((n.x ^ 2 + n.y ^ 2 + n.z ^ 2 : ℚ) : ℝ) ≠ 0 :=
      ne_of_gt (Real.sqrt_pos.mpr hQpos)
    have hsq : Real.sqrt ((n.x ^ 2 + n.y ^ 2 + n.z ^ 2 : ℚ) : ℝ) ^ 2
        = ((n.x ^ 2 + n.y ^ 2 + n.z ^ 2 : ℚ) : ℝ) := Real.sq_sqrt hQpos.le
    field_simp
    have hden : ((n.x : ℝ) ^ 2 + (n.y : ℝ) ^ 2 + (n.z : ℝ) ^ 2) ≠ 0 := by
      push_cast at hQpos
      linarith
    exact div_self hden

/-- C3 witness: at the integer triple `(0,0,0), (1,0,0), (0,1,0)` the
corrected points are non-degenerate and the amended create specification
holds by applying `create_nondegenerate_spec`. -/
theorem create_nondegenerate_spec_witness :
    Vec3.cross ((Vec3.correct ⟨0, 1, 0⟩) - (Vec3.correct ⟨0, 0, 0⟩))
        ((Vec3.correct ⟨1, 0, 0⟩) - (Vec3.correct ⟨0, 0, 0⟩)) ≠ 0
    ∧ ∃ f : BrushFace,
      BrushFace.create ⟨0, 0, 0⟩ ⟨1, 0, 0⟩ ⟨0, 1, 0⟩ attrsDefault uvDefault = .ok f
      ∧ f.boundary.normal
          = Vec3.cross ((Vec3.correct ⟨0, 1, 0⟩) - (Vec3.correct ⟨0, 0, 0⟩))
              ((Vec3.correct ⟨1, 0, 0⟩) - (Vec3.correct ⟨0, 0, 0⟩))
      ∧ Vec3.dot f.boundary.normal ((Vec3.correct ⟨1, 0, 0⟩) - (Vec3.correct ⟨0, 0, 0⟩)) = 0
      ∧ Vec3.dot f.boundary.normal ((Vec3.correct ⟨0, 1, 0⟩) - (Vec3.correct ⟨0, 0, 0⟩)) = 0
      ∧ ((f.boundary.normal.x : ℝ)
            / Real.sqrt ((f.boundary.normal.x ^ 2 + f.boundary.normal.y ^ 2
                + f.boundary.normal.z ^ 2 : ℚ) : ℝ)) ^ 2
          + ((f.boundary.normal.y : ℝ)
            / Real.sqrt ((f.boundary.normal.x ^ 2 + f.boundary.normal.y ^ 2
                + f.boundary.normal.z ^ 2 : ℚ) : ℝ)) ^ 2
          + ((f.boundary.normal.z : ℝ)
            / Real.sqrt ((f.boundary.normal.x ^ 2 + f.boundary.normal.y ^ 2
                + f.boundary.normal.z ^ 2 : ℚ) : ℝ)) ^ 2 = 1 :=
  ⟨by with_unfolding_all decide,
   BrushFace.create_nondegenerate_spec ⟨0, 0, 0⟩ ⟨1, 0, 0⟩ ⟨0, 1, 0⟩ attrsDefault uvDefault
     (by with_unfolding_all decide)⟩

/-- The boolean lexicographic comparison is the expected nested order. -/
theorem lexLe4_iff (a b : ℚ × ℚ × ℚ × ℚ) :
    BrushFace.lexLe4 a b = true ↔
      (a.1 < b.1 ∨ (a.1 = b.1 ∧ (a.2.1 < b.2.1 ∨ (a.2.1 = b.2.1 ∧
        (a.2.2.1 < b.2.2.1 ∨ (a.2.2.1 = b.2.2.1 ∧ a.2.2.2 ≤ b.2.2.2)))))) := by
  obtain ⟨a1, a2, a3, a4⟩ := a
  obtain ⟨b1, b2, b3, b4⟩ := b
  unfold BrushFace.lexLe4
  dsimp only
  split_ifs with h1 h2 h3 h4 h5 h6 <;>
    simp only [true_iff, false_iff, decide_eq_true_eq]
  · exact Or.inl h1
  · rintro (h | ⟨he, _⟩)
    · exact h1 h
    · rw [he] at h2
      exact lt_irrefl b1 h2
  · exact Or.inr ⟨le_antisymm (not_lt.mp h2) (not_lt.mp h1), Or.inl h3⟩
  · rintro (h | ⟨_, h | ⟨he, _⟩⟩)
    · exact h1 h
    · exact h3 h
    · rw [he] at h4
      exact lt_irrefl b2 h4
  · exact Or.inr ⟨le_antisymm (not_lt.mp h2) (not_lt.mp h1),
      Or.inr ⟨le_antisymm (not_lt.mp h4) (not_lt.mp h3), Or.inl h5⟩⟩
  · rintro (h | ⟨_, h | ⟨_, h | ⟨he, _⟩⟩⟩)
    · exact h1 h
    · exact h3 h
    · exact h5 h
    · rw [he] at h6
      exact lt_irrefl b3 h6
  · constructor
    · intro h
      exact Or.inr ⟨le_antisymm (not_lt.mp h2) (not_lt.mp h1),
        Or.inr ⟨le_antisymm (not_lt.mp h4) (not_lt.mp h3),
          Or.inr ⟨le_antisymm (not_lt.mp h6) (not_lt.mp h5), h⟩⟩⟩
    · rintro (h | ⟨_, h | ⟨_, h | ⟨_, h⟩⟩⟩)
      · exact absurd h h1
      · exact absurd h h3
      · exact absurd h h5
      · exact h

/-- The comparison is total. -/
theorem lexLe4_total (a b : ℚ × ℚ × ℚ × ℚ) :
    BrushFace.lexLe4 a b = true ∨ BrushFace.lexLe4 b a = true := by
  rw [lexLe4_iff, lexLe4_iff]
  obtain ⟨a1, a2, a3, a4⟩ := a
  obtain ⟨b1, b2, b3, b4⟩ := b
  dsimp only
  rcases lt_trichotomy a1 b1 with h1 | h1 | h1
  · exact Or.inl (Or.inl h1)
  · rcases lt_trichotomy a2 b2 with h2 | h2 | h2
    · exact Or.inl (Or.inr ⟨h1, Or.inl h2⟩)
    · rcases lt_trichotomy a3 b3 with h3 | h3 | h3
      · exact Or.inl (Or.inr ⟨h1, Or.inr ⟨h2, Or.inl h3⟩⟩)
      · rcases le_total a4 b4 with h4 | h4
        · exact Or.inl (Or.inr ⟨h1, Or.inr ⟨h2, Or.inr ⟨h3, h4⟩⟩⟩)
        · exact Or.inr (Or.inr ⟨h1.symm, Or.inr ⟨h2.symm, Or.inr ⟨h3.symm, h4⟩⟩⟩)
      · exact Or.inr (Or.inr ⟨h1.symm, Or.inr ⟨h2.symm, Or.inl h3⟩⟩)
    · exact Or.inr (Or.inr ⟨h1.symm, Or.inl h2⟩)
  · exact Or.inr (Or.inl h1)

/-- The comparison is transitive. -/
theorem lexLe4_trans (a b c : ℚ × ℚ × ℚ × ℚ)
    (hab : BrushFace.lexLe4 a b = true) (hbc : BrushFace.lexLe4 b c = true) :
    BrushFace.lexLe4 a c = true := by
  rw [lexLe4_iff] at hab hbc ⊢
  obtain ⟨a1, a2, a3, a4⟩ := a
  obtain ⟨b1, b2, b3, b4⟩ := b
  obtain ⟨c1, c2, c3, c4⟩ := c
  dsimp only at hab hbc ⊢
  rcases hab with h | ⟨e1, hab⟩
  · rcases hbc with h' | ⟨e1', _⟩
    · exact Or.inl (lt_trans h h')
    · exact Or.inl (by rw [← e1']; exact h)
  · rcases hbc with h' | ⟨e1', hbc⟩
    · exact Or.inl (by rw [e1]; exact h')
    · refine Or.inr ⟨e1.trans e1', ?_⟩
      rcases hab with h | ⟨e2, hab⟩
      · rcases hbc with h' | ⟨e2', _⟩
        · exact Or.inl (lt_trans h h')
        · exact Or.inl (by rw [← e2']; exact h)
      · rcases hbc with h' | ⟨e2', hbc⟩
        · exact Or.inl (by rw [e2]; exact h')
        · refine Or.inr ⟨e2.trans e2', ?_⟩
          rcases hab with h | ⟨e3, hab⟩
          · rcases hbc with h' | ⟨e3', _⟩
            · exact Or.inl (lt_trans h h')
            · exact Or.inl (by rw [← e3']; exact h)
          · rcases hbc with h' | ⟨e3', hbc⟩
            · exact Or.inl (by rw [e3]; exact h')
            · exact Or.inr ⟨e3.trans e3', le_trans hab hbc⟩

/-- The comparison is antisymmetric on keys. -/
theorem lexLe4_antisymm (a b : ℚ × ℚ × ℚ × ℚ)
    (hab : BrushFace.lexLe4 a b = true) (hba : BrushFace.lexLe4 b a = true) :
    a = b := by
  rw [lexLe4_iff] at hab hba
  obtain ⟨a1, a2, a3, a4⟩ := a
  obtain ⟨b1, b2, b3, b4⟩ := b
  dsimp only at hab hba ⊢
  have e1 : a1 = b1 := by
    rcases hab with h | ⟨e, _⟩ <;> rcases hba with h' | ⟨e', _⟩ <;> linarith
  have hab2 : a2 < b2 ∨ a2 = b2 ∧ (a3 < b3 ∨ (a3 = b3 ∧ a4 ≤ b4)) := by
    rcases hab with h | ⟨_, h2⟩
    · exact absurd h (by rw [e1]; exact lt_irrefl b1)
    · exact h2
  have hba2 : b2 < a2 ∨ b2 = a2 ∧ (b3 < a3 ∨ (b3 = a3 ∧ b4 ≤ a4)) := by
    rcases hba with h | ⟨_, h2⟩
    · exact absurd h (by rw [e1]; exact lt_irrefl b1)
    · exact h2
  have e2 : a2 = b2 := by
    rcases hab2 with h | ⟨e, _⟩ <;> rcases hba2 with h' | ⟨e', _⟩ <;> linarith
  have hab3 : a3 < b3 ∨ (a3 = b3 ∧ a4 ≤ b4) := by
    rcases hab2 with h | ⟨_, h3⟩
    · exact absurd h (by rw [e2]; exact lt_irrefl b2)
    · exact h3
  have hba3 : b3 < a3 ∨ (b3 = a3 ∧ b4 ≤ a4) := by
    rcases hba2 with h | ⟨_, h3⟩
    · exact absurd h (by rw [e2]; exact lt_irrefl b2)
    · exact h3
  have e3 : a3 = b3 := by
    rcases hab3 with h | ⟨e, _⟩ <;> rcases hba3 with h' | ⟨e', _⟩ <;> linarith
  have e4 : a4 = b4 := by
    rcases hab3 with h | ⟨_, h4⟩
    · exact absurd h (by rw [e3]; exact lt_irrefl b3)
    · rcases hba3 with h' | ⟨_, h4'⟩
      · exact absurd h' (by rw [e3]; exact lt_irrefl b3)
      · exact le_antisymm h4 h4'
  rw [e1, e2, e3, e4]

/-- Equal sort keys have equal plane normals. -/
theorem faceKey_eq_normal {f g : BrushFace}
    (h : BrushFace.faceKey f = BrushFace.faceKey g) :
    f.boundary.normal = g.boundary.normal := by
  unfold BrushFace.faceKey at h
  rw [Prod.ext_iff, Prod.ext_iff, Prod.ext_iff] at h
  obtain ⟨hx, hy, hz, _⟩ := h
  exact Vec3.ext hx hy hz

/-- In a list with pairwise distinct plane normals, equal normals force
equal elements. -/
theorem mem_pairwise_normal_inj (l : List BrushFace)
    (hl : l.Pairwise fun a b => a.boundary.normal ≠ b.boundary.normal) :
    ∀ a ∈ l, ∀ b ∈ l, a.boundary.normal = b.boundary.normal → a = b := by
  induction hl with
  | nil =>
    intro a ha
    exact absurd ha (List.not_mem_nil a)
  | cons hx _ ih =>
    intro a ha b hb heq
    rcases List.mem_cons.mp ha with rfl | ha'
    · rcases List.mem_cons.mp hb with rfl | hb'
      · rfl
      · exact absurd heq (hx b hb')
    · rcases List.mem_cons.mp hb with rfl | hb'
      · exact absurd heq.symm (hx a ha')
      · exact ih a ha' b hb' heq

/-- Two sorted lists that are permutations of each other and on whose
elements the order is antisymmetric are equal. -/
theorem sorted_perm_unique : ∀ l₁ l₂ : List BrushFace,
    (∀ a ∈ l₁, ∀ b ∈ l₁,
      BrushFace.faceLe a b = true → BrushFace.faceLe b a = true → a = b) →
    l₁.Perm l₂ →
    l₁.Pairwise (fun a b => BrushFace.faceLe a b = true) →
    l₂.Pairwise (fun a b => BrushFace.faceLe a b = true) →
    l₁ = l₂ := by
  intro l₁
  induction l₁ with
  | nil =>
    intro l₂ _ hp _ _
    exact (List.Perm.eq_nil hp.symm).symm
  | cons x t ih =>
    intro l₂ hanti hp hs₁ hs₂
    cases l₂ with
    | nil => exact absurd hp.eq_nil (by simp)
    | cons y u =>
      have hx2 : x ∈ y :: u := hp.subset (List.mem_cons_self x t)
      have hy1 : y ∈ x :: t := hp.symm.subset (List.mem_cons_self y u)
      have hxy : x = y := by
        rcases List.mem_cons.mp hx2 with h | hxu
        · exact h
        · rcases List.mem_cons.mp hy1 with h | hyt
          · exact h.symm
          · have h1 : BrushFace.faceLe x y = true := (List.pairwise_cons.mp hs₁).1 y hyt
            have h2 : BrushFace.faceLe y x = true := (List.pairwise_cons.mp hs₂).1 x hxu
            exact hanti x (List.mem_cons_self x t) y hy1 h1 h2
      subst hxy
      have hp' : t.Perm u := hp.cons_inv
      have ht := ih u
        (fun a ha b hb => hanti a (List.mem_cons_of_mem _ ha) b (List.mem_cons_of_mem _ hb))
        hp' (List.pairwise_cons.mp hs₁).2 (List.pairwise_cons.mp hs₂).2
      rw [ht]

/-- C7: for faces with pairwise distinct plane normals, `sortFaces`
produces the same output order regardless of the input permutation, and
that output is sorted in the total order given by lexicographic comparison
of the plane normals with ties broken by the plane distance. -/
theorem BrushFace.sortFaces_deterministic (l₁ l₂ : List BrushFace)
    (hperm : l₁.Perm l₂)
    (hdist : l₁.Pairwise fun a b => a.boundary.normal ≠ b.boundary.normal) :
    BrushFace.sortFaces l₁ = BrushFace.sortFaces l₂
    ∧ (BrushFace.sortFaces l₁).Pairwise
        (fun a b => BrushFace.faceLe a b = true) := by
  have htrans : ∀ a b c : BrushFace, BrushFace.faceLe a b = true →
      BrushFace.faceLe b c = true → BrushFace.faceLe a c = true :=
    fun a b c => lexLe4_trans _ _ _
  have htotal : ∀ a b : BrushFace,
      (BrushFace.faceLe a b || BrushFace.faceLe b a) = true := by
    intro a b
    rcases lexLe4_total (BrushFace.faceKey a) (BrushFace.faceKey b) with h | h <;>
      simp [BrushFace.faceLe, h]
  have hs₁ : (BrushFace.sortFaces l₁).Pairwise
      (fun a b => BrushFace.faceLe a b = true) :=
    List.sorted_mergeSort htrans htotal l₁
  have hs₂ : (BrushFace.sortFaces l₂).Pairwise
      (fun a b => BrushFace.faceLe a b = true) :=
    List.sorted_mergeSort htrans htotal l₂
  have hp₁ : (BrushFace.sortFaces l₁).Perm (BrushFace.sortFaces l₂) :=
    (List.mergeSort_perm l₁ _).trans (hperm.trans (List.mergeSort_perm l₂ _).symm)
  have hdist₁ : (BrushFace.sortFaces l₁).Pairwise
      (fun a b => a.boundary.normal ≠ b.boundary.normal) :=
    ((List.mergeSort_perm l₁ _).pairwise_iff
      (fun {_ _} h he => h he.symm)).mpr hdist
  have hanti : ∀ a ∈ BrushFace.sortFaces l₁, ∀ b ∈ BrushFace.sortFaces l₁,
      BrushFace.faceLe a b = true → BrushFace.faceLe b a = true → a = b := by
    intro a ha b hb h1 h2
    exact mem_pairwise_normal_inj _ hdist₁ a ha b hb
      (faceKey_eq_normal (lexLe4_antisymm _ _ h1 h2))
  exact ⟨sorted_perm_unique _ _ hanti hp₁ hs₁ hs₂, hs₁⟩

/-- C7 witness: two concrete two-face lists that are permutations of each
other with distinct plane normals, at which `sortFaces_deterministic`
applies. -/
theorem sortFaces_deterministic_witness :
    ([faceA, faceB] : List BrushFace).Perm [faceB, faceA]
    ∧ ([faceA, faceB] : List BrushFace).Pairwise
        (fun a b => a.boundary.normal ≠ b.boundary.normal)
    ∧ (BrushFace.sortFaces [faceA, faceB] = BrushFace.sortFaces [faceB, faceA]
      ∧ (BrushFace.sortFaces [faceA, faceB]).Pairwise
          (fun a b => BrushFace.faceLe a b = true)) :=
  ⟨by with_unfolding_all decide, by with_unfolding_all decide,
   BrushFace.sortFaces_deterministic [faceA, faceB] [faceB, faceA]
     (by with_unfolding_all decide) (by with_unfolding_all decide)⟩

/-- The corrected defining points produced inside `BrushFace::transform`:
the three points after the matrix, the winding correction against the
transformed plane normal, and the per-point correction done by
`setPoints`. -/
def correctedTransformedPoints (f : BrushFace) (M : Affine) : Vec3 × Vec3 × Vec3 :=
  ((BrushFace.windingCorrected (BrushFace.transformedPoints f M)
      ((f.boundary.transform M).normal)).1.correct,
   (BrushFace.windingCorrected (BrushFace.transformedPoints f M)
      ((f.boundary.transform M).normal)).2.1.correct,
   (BrushFace.windingCorrected (BrushFace.transformedPoints f M)
      ((f.boundary.transform M).normal)).2.2.correct)

/-- C1: `transform(matrix, lockAlignment)` transforms the plane and the
three defining points by the matrix, swaps the second and third points when
the transformed triangle's signed normal opposes the transformed plane
normal, re-derives the plane from the corrected points — returning exactly
the error `"Brush has invalid face"` when they are degenerate — and only on
success delegates to the UV system's `transform` with the pre-transform
plane, the re-derived post-transform plane, the attributes, the texture
size, the alignment-lock flag, and the invariant point recorded before the
transform: the polygon center when a geometry is attached, else the plane
anchor. -/
theorem BrushFace.transform_spec (f : BrushFace) (M : Affine) (lockAlignment : Bool)
    (_hdet : M.linear.det ≠ 0) :
    (∀ e, f.transform M lockAlignment = .error e ↔
      (fromPoints (correctedTransformedPoints f M).1 (correctedTransformedPoints f M).2.1
          (correctedTransformedPoints f M).2.2 = none
        ∧ e = "Brush has invalid face"))
    ∧ (∀ (fN : BrushFace) (call : BrushFace.UVTransformCall),
        f.transform M lockAlignment = .ok (fN, call) →
          fN.points = correctedTransformedPoints f M
          ∧ fromPoints (correctedTransformedPoints f M).1 (correctedTransformedPoints f M).2.1
              (correctedTransformedPoints f M).2.2 = some fN.boundary
          ∧ call.oldBoundary = f.boundary
          ∧ call.newBoundary = fN.boundary
          ∧ call.matrix = M
          ∧ call.attributes = f.attributes
          ∧ call.textureSize = f.textureSize
          ∧ call.lockAlignment = lockAlignment
          ∧ (f.geometry = none → call.invariant = f.boundary.anchor)
          ∧ (∀ vs, f.geometry = some vs → call.invariant = BrushFace.centerOf vs)
          ∧ fN.attributes = f.attributes
          ∧ fN.geometry = f.geometry
          ∧ fN.material = f.material) := by
  cases hfp : fromPoints (correctedTransformedPoints f M).1
      (correctedTransformedPoints f M).2.1 (correctedTransformedPoints f M).2.2 with
  | none =>
    have he : f.transform M lockAlignment = .error "Brush has invalid face" := by
      unfold BrushFace.transform BrushFace.setPoints
      simp only [correctedTransformedPoints] at hfp
      simp only [hfp]
    constructor
    · intro e
      rw [he]
      simp [eq_comm]
    · intro fN call hok
      rw [he] at hok
      exact absurd hok (by simp)
  | some pl =>
    have he : f.transform M lockAlignment
        = .ok ({ f with points := correctedTransformedPoints f M, boundary := pl },
            { oldBoundary := f.boundary
              newBoundary := pl
              matrix := M
              attributes := f.attributes
              textureSize := f.textureSize
              lockAlignment := lockAlignment
              invariant := match f.geometry with
                | some _ => f.center
                | none => f.boundary.anchor }) := by
      unfold BrushFace.transform BrushFace.setPoints
      simp only [correctedTransformedPoints] at hfp
      simp only [hfp]
      rfl
    constructor
    · intro e
      rw [he]
      simp
    · intro fN call hok
      rw [he] at hok
      simp only [Except.ok.injEq, Prod.mk.injEq] at hok
      obtain ⟨hfN, hcall⟩ := hok
      subst hfN
      subst hcall
      refine ⟨rfl, rfl, rfl, rfl, rfl, rfl, rfl, rfl, ?_, ?_, rfl, rfl, rfl⟩
      · intro hg
        show (match f.geometry with
          | some _ => f.center
          | none => f.boundary.anchor) = f.boundary.anchor
        rw [hg]
      · intro vs hg
        show (match f.geometry with
          | some _ => f.center
          | none => f.boundary.anchor) = BrushFace.centerOf vs
        rw [hg]
        show f.center = BrushFace.centerOf vs
        unfold BrushFace.center
        rw [hg]

/-- The identity affine transform. -/
def affineId : Affine := ⟨⟨⟨1, 0, 0⟩, ⟨0, 1, 0⟩, ⟨0, 0, 1⟩⟩, ⟨0, 0, 0⟩⟩

/-- C1 witness: the identity transform has nonzero determinant, and the
transform specification holds at the concrete triangular face by applying
`transform_spec`. -/
theorem transform_spec_witness :
    affineId.linear.det ≠ 0
    ∧ ((∀ e, faceTriangle.transform affineId true = .error e ↔
        (fromPoints (correctedTransformedPoints faceTriangle affineId).1
            (correctedTransformedPoints faceTriangle affineId).2.1
            (correctedTransformedPoints faceTriangle affineId).2.2 = none
          ∧ e = "Brush has invalid face"))
      ∧ (∀ (fN : BrushFace) (call : BrushFace.UVTransformCall),
          faceTriangle.transform affineId true = .ok (fN, call) →
            fN.points = correctedTransformedPoints faceTriangle affineId
            ∧ fromPoints (correctedTransformedPoints faceTriangle affineId).1
                (correctedTransformedPoints faceTriangle affineId).2.1
                (correctedTransformedPoints faceTriangle affineId).2.2 = some fN.boundary
            ∧ call.oldBoundary = faceTriangle.boundary
            ∧ call.newBoundary = fN.boundary
            ∧ call.matrix = affineId
            ∧ call.attributes = faceTriangle.attributes
            ∧ call.textureSize = faceTriangle.textureSize
            ∧ call.lockAlignment = true
            ∧ (faceTriangle.geometry = none → call.invariant = faceTriangle.boundary.anchor)
            ∧ (∀ vs, faceTriangle.geometry = some vs
                → call.invariant = BrushFace.centerOf vs)
            ∧ fN.attributes = faceTriangle.attributes
            ∧ fN.geometry = faceTriangle.geometry
            ∧ fN.material = faceTriangle.material)) :=
  ⟨by with_unfolding_all decide,
   BrushFace.transform_spec faceTriangle affineId true (by with_unfolding_all decide)⟩

/-- The offset correction of the seam-preservation code changes a UV
coordinate by an integer number of texture repeats plus the 4-decimal
rounding error (helper for C4):  after replacing the offset by
`correct(modOffset(offset + (desired - current)), 4)`, the UV coordinate of
the reference point differs from its old value by an integer plus at most
`1/10000`. -/
theorem offset_correction_bound (dOld dNew off s W : ℚ) (hW : 1 ≤ W) :
    ∃ k : ℤ,
      |(dNew / s
          + correctScalar 4 (fmodQ (off + ((dOld / s + off) / 1 - (dNew / s + off) / 1)) W)) / W
        - (dOld / s + off) / W - (k : ℚ)| ≤ 1 / 10000 := by
  obtain ⟨k0, hk0⟩ :=
    fmodQ_sub_int (off + ((dOld / s + off) / 1 - (dNew / s + off) / 1)) W
  refine ⟨-k0, ?_⟩
  have hWpos : (0 : ℚ) < W := by linarith
  have hδ := correctScalar_close 4
    (fmodQ (off + ((dOld / s + off) / 1 - (dNew / s + off) / 1)) W)
  have key : (dNew / s
        + correctScalar 4 (fmodQ (off + ((dOld / s + off) / 1 - (dNew / s + off) / 1)) W)) / W
      - (dOld / s + off) / W - ((-k0 : ℤ) : ℚ)
      = (correctScalar 4 (fmodQ (off + ((dOld / s + off) / 1 - (dNew / s + off) / 1)) W)
          - fmodQ (off + ((dOld / s + off) / 1 - (dNew / s + off) / 1)) W) / W := by
    nth_rewrite 3 [hk0]
    push_cast
    field_simp
    ring
  rw [key, abs_div, abs_of_pos hWpos]
  calc |correctScalar 4 (fmodQ (off + ((dOld / s + off) / 1 - (dNew / s + off) / 1)) W)
        - fmodQ (off + ((dOld / s + off) / 1 - (dNew / s + off) / 1)) W| / W
      ≤ |correctScalar 4 (fmodQ (off + ((dOld / s + off) / 1 - (dNew / s + off) / 1)) W)
        - fmodQ (off + ((dOld / s + off) / 1 - (dNew / s + off) / 1)) W| :=
        div_le_self (abs_nonneg _) hW
    _ ≤ correctEpsilon / 10 ^ 4 := hδ
    _ ≤ 1 / 10000 := by unfold correctEpsilon; norm_num

/-- C4 counterexample: for a square boundary, `updatePointsFromVertices`
derives the third defining point from the *last* boundary vertex, not one
of the first three.  On the concrete square face the call succeeds and the
resulting points are `(v1, v0, v3)`, whose third entry `(0,2,0)` differs
from each of the first three boundary vertices. -/
theorem updatePoints_first_three_cex :
    faceSquare.updatePointsFromVertices
      = .ok { faceSquare with
              points := (⟨2, 0, 0⟩, ⟨0, 0, 0⟩, ⟨0, 2, 0⟩)
              boundary := ⟨⟨0, 0, 4⟩, 0⟩ }
    ∧ faceSquare.geometry = some [⟨0, 0, 0⟩, ⟨2, 0, 0⟩, ⟨2, 2, 0⟩, ⟨0, 2, 0⟩]
    ∧ ((⟨0, 2, 0⟩ : Vec3) ≠ ⟨0, 0, 0⟩ ∧ (⟨0, 2, 0⟩ : Vec3) ≠ ⟨2, 0, 0⟩
        ∧ (⟨0, 2, 0⟩ : Vec3) ≠ ⟨2, 2, 0⟩) :=
  ⟨by with_unfolding_all decide, rfl, by decide⟩

/-- C4 (amended): with an attached boundary, `updatePointsFromVertices`
re-derives the three defining points from the boundary vertices around the
first half-edge — the second, the first, and the *last* boundary vertex
(each corrected) — and the plane from them; and whenever the old and the
new plane are not parallel (the seam exists), the UV coordinates at the
seam point nearest the center are preserved up to an integer number of
texture repeats and the 4-decimal rounding of the offset (within
`1/10000`). -/
theorem BrushFace.updatePointsFromVertices_spec (f : BrushFace) (vs : List Vec3)
    (hg : f.geometry = some vs) (_h3 : 3 ≤ vs.length)
    (fN : BrushFace) (hok : f.updatePointsFromVertices = .ok fN) :
    fN.points = ((vs.getD 1 0).correct, (vs.getD 0 0).correct, (vs.getLast?.getD 0).correct)
    ∧ fromPoints (vs.getD 1 0).correct (vs.getD 0 0).correct (vs.getLast?.getD 0).correct
        = some fN.boundary
    ∧ fN.geometry = f.geometry
    ∧ fN.material = f.material
    ∧ (∀ seam, intersectPlanePlane f.boundary fN.boundary = some seam →
        ∃ k j : ℤ,
          |(fN.uvCoords (seam.projectPoint f.center)).1
              - (f.uvCoords (seam.projectPoint f.center)).1 - (k : ℚ)| ≤ 1 / 10000
          ∧ |(fN.uvCoords (seam.projectPoint f.center)).2
              - (f.uvCoords (seam.projectPoint f.center)).2 - (j : ℚ)| ≤ 1 / 10000) := by
  unfold BrushFace.updatePointsFromVertices at hok
  rw [hg] at hok
  unfold BrushFace.setPoints at hok
  cases hfp : fromPoints (vs.getD 1 0).correct (vs.getD 0 0).correct
      (vs.getLast?.getD 0).correct with
  | none =>
    simp only [hfp] at hok
    exact Except.noConfusion hok
  | some pl =>
    simp only [hfp] at hok
    cases hi : intersectPlanePlane f.boundary pl with
    | none =>
      simp only [hi, Except.ok.injEq] at hok
      subst hok
      refine ⟨rfl, rfl, rfl, rfl, ?_⟩
      intro seam hseam
      have hseam' : intersectPlanePlane f.boundary pl = some seam := hseam
      rw [hi] at hseam'
      exact Option.noConfusion hseam'
    | some seam0 =>
      simp only [hi, Except.ok.injEq] at hok
      subst hok
      refine ⟨rfl, rfl, rfl, rfl, ?_⟩
      intro seam hseam
      have hseam' : intersectPlanePlane f.boundary pl = some seam := hseam
      rw [hi] at hseam'
      cases Option.some.inj hseam'
      obtain ⟨hW1, hW2⟩ := textureSize_one_le f
      obtain ⟨k, hk⟩ := offset_correction_bound
        (Vec3.dot (seam0.projectPoint f.center) f.uvCoordSystem.uAxis)
        (Vec3.dot (seam0.projectPoint f.center)
          (f.uvCoordSystem.setNormal f.boundary.normal pl.normal f.attributes
            WrapStyle.projection).uAxis)
        f.attributes.xOffset (safeScale f.attributes.xScale) f.textureSize.1 hW1
      obtain ⟨j, hj⟩ := offset_correction_bound
        (Vec3.dot (seam0.projectPoint f.center) f.uvCoordSystem.vAxis)
        (Vec3.dot (seam0.projectPoint f.center)
          (f.uvCoordSystem.setNormal f.boundary.normal pl.normal f.attributes
            WrapStyle.projection).vAxis)
        f.attributes.yOffset (safeScale f.attributes.yScale) f.textureSize.2 hW2
      exact ⟨k, j, hk, hj⟩

/-- The boundary vertices of the square fixture. -/
def squareVerts : List Vec3 := [⟨0, 0, 0⟩, ⟨2, 0, 0⟩, ⟨2, 2, 0⟩, ⟨0, 2, 0⟩]

/-- The square fixture after `updatePointsFromVertices`: points re-derived
from the second, first and last boundary vertices and the plane re-derived
from them (the UV state and offset happen to be unchanged here). -/
def faceSquareUpdated : BrushFace :=
  { faceSquare with
    points := (⟨2, 0, 0⟩, ⟨0, 0, 0⟩, ⟨0, 2, 0⟩)
    boundary := ⟨⟨0, 0, 4⟩, 0⟩ }

/-- C4 witness: the hypotheses of `updatePointsFromVertices_spec` hold at
the concrete square face, and the conclusion follows by applying it. -/
theorem updatePointsFromVertices_spec_witness :
    faceSquare.geometry = some squareVerts
    ∧ 3 ≤ squareVerts.length
    ∧ faceSquare.updatePointsFromVertices = .ok faceSquareUpdated
    ∧ (faceSquareUpdated.points
        = ((squareVerts.getD 1 0).correct, (squareVerts.getD 0 0).correct,
            (squareVerts.getLast?.getD 0).correct)
      ∧ fromPoints (squareVerts.getD 1 0).correct (squareVerts.getD 0 0).correct
          (squareVerts.getLast?.getD 0).correct = some faceSquareUpdated.boundary
      ∧ faceSquareUpdated.geometry = faceSquare.geometry
      ∧ faceSquareUpdated.material = faceSquare.material
      ∧ (∀ seam, intersectPlanePlane faceSquare.boundary faceSquareUpdated.boundary
            = some seam →
          ∃ k j : ℤ,
            |(faceSquareUpdated.uvCoords (seam.projectPoint faceSquare.center)).1
                - (faceSquare.uvCoords (seam.projectPoint faceSquare.center)).1
                - (k : ℚ)| ≤ 1 / 10000
            ∧ |(faceSquareUpdated.uvCoords (seam.projectPoint faceSquare.center)).2
                - (faceSquare.uvCoords (seam.projectPoint faceSquare.center)).2
                - (j : ℚ)| ≤ 1 / 10000)) :=
  ⟨rfl, by decide, by with_unfolding_all decide,
   BrushFace.updatePointsFromVertices_spec faceSquare squareVerts rfl (by decide)
     faceSquareUpdated (by with_unfolding_all decide)⟩

end TBMdl
